import Mathlib

/-!
Shallow embedding of the worker batch handlers of
`src/narwhal/worker/src/handlers.rs` (the `WorkerToWorker` and
`PrimaryToWorker` implementations for `WorkerReceiverHandler` and
`PrimaryReceiverHandler`).

Modelling conventions:
* `BatchDigest`, `WorkerId`, `AuthorityIdentifier`, `ProtocolKey`,
  `WorkerName`, `PeerId` are opaque identifiers, embedded as `Nat`.
* The batch store `DBMap<BatchDigest, Batch>` is embedded as an in-memory
  association list with `get` / `multi_get` / `insert` / `remove`.
  Storage I/O faults (the `map_err(... internal ...)` branches of the
  source) are external failures of the RocksDB engine and are not part of
  the state embedded here; store operations are total on the in-memory
  contents, and absence is `none`, never an error.
* The external collaborators that the handler file only calls -
  `Batch::digest()` (fastcrypto hash), `Batch::size()` (types crate) and
  `TransactionValidator::validate_batch` - live outside `src/`; they are
  bundled in an `Env` of pure functions, universally quantified in the
  theorems.
* The outbound `WorkerToWorkerClient::request_batches` RPC issued during
  `synchronize` is embedded as a function `rpc` from the requested digest
  list to the peer's reply (or a transport error status), passed as an
  explicit argument.
-/

abbrev BatchDigest := Nat
abbrev WorkerId := Nat
abbrev AuthorityIdentifier := Nat
abbrev ProtocolKey := Nat
abbrev WorkerName := Nat
abbrev PeerId := Nat

/-- Modelled from the spec: a Batch is "an opaque ordered sequence of
transactions plus metadata sufficient to compute a cryptographic digest"
(the `Batch` type of the `types` crate is not under `src/`).  Transactions
are opaque and embedded as `Nat`. -/
structure Batch where
  transactions : List Nat
deriving DecidableEq, Repr

/-- Modelled from the spec: the external collaborators of the handler file
that are not under `src/`.  `digest` embeds `Batch::digest()` ("the digest
is a pure function of the batch content"); `size` embeds `Batch::size()`
("a batch has a `size()` in bytes used for wire budgeting"); `validator`
embeds `TransactionValidator::validate_batch` ("`validate_batch(&Batch) →
ok | error-with-message`"). -/
structure Env where
  digest : Batch → BatchDigest
  size : Batch → Nat
  validator : Batch → Except String Unit

/-- The in-memory contents of the batch store `DBMap<BatchDigest, Batch>`. -/
abbrev Store := List (BatchDigest × Batch)

namespace Store

/-- `DBMap::get`: the value of the first entry with the given key. -/
def get (s : Store) (d : BatchDigest) : Option Batch :=
  (s.find? (fun p => p.1 == d)).map (·.2)

/-- `DBMap::multi_get`: one optional value per requested key, preserving
input order. -/
def multi_get (s : Store) (ds : List BatchDigest) : List (Option Batch) :=
  ds.map (get s)

/-- `DBMap::insert`: overwrite semantics, last writer wins. -/
def insert (s : Store) (d : BatchDigest) (b : Batch) : Store :=
  (d, b) :: s

/-- `DBMap::remove`. -/
def remove (s : Store) (d : BatchDigest) : Store :=
  s.filter (fun p => p.1 != d)

theorem get_insert_self (s : Store) (d : BatchDigest) (b : Batch) :
    (s.insert d b).get d = some b := by
  simp [get, insert, List.find?]

theorem get_insert_ne (s : Store) (d d' : BatchDigest) (b : Batch)
    (h : d' ≠ d) : (s.insert d b).get d' = s.get d' := by
  simp only [get, insert, List.find?]
  have : ((d, b).1 == d') = false := by
    simp [beq_iff_eq]
    exact fun hc => h hc.symm
  simp [this]

end Store

/-- RPC status codes used by the handlers (`anemo::types::response::StatusCode`):
the handlers produce only `BadRequest` and `Internal`. -/
inductive StatusCode where
  | badRequest
  | internal
deriving DecidableEq, Repr

/-- An `anemo::rpc::Status`: a code plus a message. -/
structure Status where
  code : StatusCode
  message : String
deriving DecidableEq, Repr

/-- `anemo::rpc::Status::new_with_message`. -/
def Status.new_with_message (c : StatusCode) (msg : String) : Status :=
  ⟨c, msg⟩

/-- `anemo::rpc::Status::internal`. -/
def Status.internal (msg : String) : Status :=
  ⟨StatusCode.internal, msg⟩

/-- `RequestBatchesResponse`. -/
structure RequestBatchesResponse where
  batches : List Batch
  is_size_limit_reached : Bool
deriving DecidableEq, Repr

/-- `MAX_REQUEST_BATCHES_RESPONSE_SIZE` of `request_batches`. -/
def MAX_REQUEST_BATCHES_RESPONSE_SIZE : Nat := 6000000

/-- `BATCH_DIGESTS_READ_CHUNK_SIZE` of `request_batches`. -/
def BATCH_DIGESTS_READ_CHUNK_SIZE : Nat := 200

/-- The three mutable locals of `request_batches`: `batches`, `total_size`,
`is_size_limit_reached`. -/
structure ScanAcc where
  batches : List Batch
  total_size : Nat
  is_size_limit_reached : Bool
deriving DecidableEq, Repr

/-- The inner loop of `request_batches` over the present batches of one
chunk (`for stored_batch in stored_batches.into_iter().flatten()`): append
while the budget allows, otherwise set `is_size_limit_reached` and `break`
out of the chunk. -/
def scanChunk (env : Env) : List Batch → ScanAcc → ScanAcc
  | [], acc => acc
  | b :: rest, acc =>
    if acc.total_size + env.size b ≤ MAX_REQUEST_BATCHES_RESPONSE_SIZE then
      scanChunk env rest
        { acc with
          batches := acc.batches ++ [b]
          total_size := acc.total_size + env.size b }
    else
      { acc with is_size_limit_reached := true }

/-- `WorkerReceiverHandler::request_batches`: chunk the requested digests,
`multi_get` each chunk, flatten away absent digests, and run the budget
scan over each chunk in turn. -/
def request_batches (env : Env) (store : Store)
    (batch_digests : List BatchDigest) : RequestBatchesResponse :=
  let digests_chunks := batch_digests.toChunks BATCH_DIGESTS_READ_CHUNK_SIZE
  let acc := digests_chunks.foldl
    (fun acc chunk => scanChunk env ((store.multi_get chunk).reduceOption) acc)
    ⟨[], 0, false⟩
  { batches := acc.batches, is_size_limit_reached := acc.is_size_limit_reached }

/-- `WorkerBatchMessage`. -/
structure WorkerBatchMessage where
  batch : Batch
deriving DecidableEq, Repr

/-- `WorkerOthersBatchMessage`, the notification sent to the primary. -/
structure WorkerOthersBatchMessage where
  digest : BatchDigest
  worker_id : WorkerId
deriving DecidableEq, Repr

/-- `WorkerReceiverHandler`: only the worker id is state of the handler
itself; the store and the primary client are shared mutable resources,
embedded below as an explicit `WorkerState`, and the validator lives in
`Env`. -/
structure WorkerReceiverHandler where
  id : WorkerId
deriving DecidableEq, Repr

/-- The mutable resources touched by `report_batch`: the batch store and
the sequence of `report_others_batch` notifications delivered to the
primary through the `NetworkClient` (in order of sending). -/
structure WorkerState where
  store : Store
  sentToPrimary : List WorkerOthersBatchMessage
deriving DecidableEq, Repr

/-- `WorkerReceiverHandler::report_batch`: validate, on rejection fail
with `BadRequest` and the validator's message; otherwise insert the batch
under its digest and notify the primary.  Network-send failures of
`report_others_batch` (mapped to `Internal` by the source) are external
faults of the transport and are not embedded; the in-memory send always
succeeds. -/
def report_batch (h : WorkerReceiverHandler) (env : Env)
    (st : WorkerState) (message : WorkerBatchMessage) :
    Except Status Unit × WorkerState :=
  match env.validator message.batch with
  | Except.error err =>
      (Except.error
        (Status.new_with_message StatusCode.badRequest ("Invalid batch: " ++ err)),
       st)
  | Except.ok () =>
      let digest := env.digest message.batch
      (Except.ok (),
       { store := st.store.insert digest message.batch
         sentToPrimary := st.sentToPrimary ++ [⟨digest, h.id⟩] })

/-- An authority record of the committee, reduced to the one field the
handler reads (`protocol_key`). -/
structure Authority where
  protocol_key : ProtocolKey

/-- The committee: `authority` returns the record of an authority id, or
`none` when the committee has no entry (the source calls `.unwrap()` on
this lookup). -/
structure Committee where
  authority : AuthorityIdentifier → Option Authority

/-- A worker-cache record, reduced to the peer network name the handler
reads. -/
structure WorkerInfo where
  name : WorkerName

/-- The worker cache: `worker` resolves a `(protocol key, worker id)` pair
to a `WorkerInfo`, or an error message when unknown. -/
structure WorkerCache where
  worker : ProtocolKey → WorkerId → Except String WorkerInfo

/-- The anemo network handle: `peer` returns the active connection for a
peer id, `none` when not connected.  The connection itself carries no data
relevant here. -/
structure Network where
  peer : PeerId → Option Unit

/-- `anemo::PeerId(worker_name.0.to_bytes())`: the peer id is a pure
injective function of the peer's network name; with names embedded as
`Nat` it is the identity. -/
def peerIdOf (n : WorkerName) : PeerId := n

/-- `WorkerSynchronizeMessage`. -/
structure WorkerSynchronizeMessage where
  digests : List BatchDigest
  target : AuthorityIdentifier
  is_certified : Bool

/-- `PrimaryReceiverHandler` (fields as in the source; the store and
validator are passed explicitly / via `Env`, timeouts are opaque). -/
structure PrimaryReceiverHandler where
  authority_id : AuthorityIdentifier
  id : WorkerId
  committee : Committee
  worker_cache : WorkerCache
  request_batch_timeout : Nat
  request_batch_retry_nodes : Nat
  network : Option Network
  batch_fetcher : Option Unit

/-- The probe loop of `synchronize`: for each requested digest, check the
store; absent digests are accumulated into the `missing` set.  The
`HashSet` is embedded as a duplicate-free list in first-absence order. -/
def probeMissing (store : Store) (digests : List BatchDigest) :
    List BatchDigest :=
  digests.foldl
    (fun acc d =>
      match store.get d with
      | none => if d ∈ acc then acc else acc ++ [d]
      | some _ => acc)
    []

/-- The mutable state of the response loop of `synchronize`: the first
error raised (if any), the remaining `missing` set, the store, and the
trace of batches the validator has been invoked on (in invocation
order). -/
structure ProcessState where
  error : Option Status
  missing : List BatchDigest
  store : Store
  validated : List Batch

/-- The `for batch in response.batches` loop of `synchronize`: when the
message is not certified, validate the batch first (a failure raises
`BadRequest` and ends the loop); then recompute the digest and, when it is
still in `missing`, remove it and insert the batch. -/
def processResponse (env : Env) (is_certified : Bool) :
    List Batch → ProcessState → ProcessState
  | [], st => st
  | batch :: rest, st =>
    if is_certified then
      let digest := env.digest batch
      if digest ∈ st.missing then
        processResponse env is_certified rest
          { st with
            missing := st.missing.erase digest
            store := st.store.insert digest batch }
      else
        processResponse env is_certified rest st
    else
      match env.validator batch with
      | Except.error err =>
          { st with
            validated := st.validated ++ [batch]
            error := some (Status.new_with_message StatusCode.badRequest
              ("Invalid batch: " ++ err)) }
      | Except.ok () =>
          let st := { st with validated := st.validated ++ [batch] }
          let digest := env.digest batch
          if digest ∈ st.missing then
            processResponse env is_certified rest
              { st with
                missing := st.missing.erase digest
                store := st.store.insert digest batch }
          else
            processResponse env is_certified rest st

/-- The outcome of a call to `synchronize`: success, an RPC error status,
or a panic of the handler task (the `.unwrap()` on the committee lookup). -/
inductive SyncOutcome where
  | ok
  | err (s : Status)
  | aborted
deriving DecidableEq, Repr

/-- The observable result of `synchronize`: the outcome, the final store
contents, and the trace of validator invocations. -/
structure SyncResult where
  outcome : SyncOutcome
  store : Store
  validated : List Batch

/-- The tail of `synchronize` after the response loop: a raised error is
returned as-is; otherwise success when `missing` is now empty, else
`Internal` "failed to synchronize batches!". -/
def syncFinish (r : ProcessState) : SyncResult :=
  match r.error with
  | some s => ⟨SyncOutcome.err s, r.store, r.validated⟩
  | none =>
    if r.missing.isEmpty then
      ⟨SyncOutcome.ok, r.store, r.validated⟩
    else
      ⟨SyncOutcome.err (Status.internal "failed to synchronize batches!"),
       r.store, r.validated⟩

/-- `PrimaryReceiverHandler::synchronize`.  `rpc` is the remote peer's
reply function for the one outbound `request_batches` RPC (a transport or
timeout error propagates unchanged through `?`). -/
def synchronize (h : PrimaryReceiverHandler) (env : Env)
    (rpc : List BatchDigest → Except Status RequestBatchesResponse)
    (store : Store) (message : WorkerSynchronizeMessage) : SyncResult :=
  match h.network with
  | none =>
      ⟨SyncOutcome.err (Status.new_with_message StatusCode.badRequest
        "synchronize() is unsupported via RPC interface, please call via local worker handler instead"),
       store, []⟩
  | some network =>
    let missing := probeMissing store message.digests
    if missing.isEmpty then
      ⟨SyncOutcome.ok, store, []⟩
    else
      match h.committee.authority message.target with
      | none => ⟨SyncOutcome.aborted, store, []⟩
      | some authority =>
        match h.worker_cache.worker authority.protocol_key h.id with
        | Except.error e =>
            ⟨SyncOutcome.err (Status.internal
              ("The primary asked worker to sync with an unknown node: " ++ e)),
             store, []⟩
        | Except.ok worker_info =>
          match network.peer (peerIdOf worker_info.name) with
          | none =>
              ⟨SyncOutcome.err (Status.internal
                ("Not connected with worker peer " ++ toString worker_info.name)),
               store, []⟩
          | some _ =>
            match rpc missing with
            | Except.error s => ⟨SyncOutcome.err s, store, []⟩
            | Except.ok response =>
              syncFinish (processResponse env message.is_certified
                response.batches ⟨none, missing, store, []⟩)

/-- Cumulative wire size of a list of batches,
`sum(b.size() for b in batches)`. -/
def sizeSum (env : Env) (bs : List Batch) : Nat :=
  (bs.map env.size).sum

/-- The longest prefix of a present-batch list that fits the response
budget starting from an accumulated size `total`; this is what `scanChunk`
appends from one chunk. -/
def fitPrefix (env : Env) (total : Nat) : List Batch → List Batch
  | [] => []
  | b :: rest =>
    if total + env.size b ≤ MAX_REQUEST_BATCHES_RESPONSE_SIZE then
      b :: fitPrefix env (total + env.size b) rest
    else
      []

theorem sizeSum_nil (env : Env) : sizeSum env [] = 0 := rfl

theorem sizeSum_append (env : Env) (l₁ l₂ : List Batch) :
    sizeSum env (l₁ ++ l₂) = sizeSum env l₁ + sizeSum env l₂ := by
  simp [sizeSum]

/-- Budget invariant of the inner chunk scan: if the accumulated size is
the size sum of the accumulated batches and is within the budget, both
facts persist through the scan of a chunk. -/
theorem scanChunk_invariant (env : Env) :
    ∀ (bs : List Batch) (acc : ScanAcc),
      sizeSum env acc.batches = acc.total_size →
      acc.total_size ≤ MAX_REQUEST_BATCHES_RESPONSE_SIZE →
      sizeSum env (scanChunk env bs acc).batches = (scanChunk env bs acc).total_size ∧
        (scanChunk env bs acc).total_size ≤ MAX_REQUEST_BATCHES_RESPONSE_SIZE := by
  intro bs
  induction bs with
  | nil => intro acc h1 h2; exact ⟨h1, h2⟩
  | cons b rest ih =>
    intro acc h1 h2
    simp only [scanChunk]
    by_cases hle : acc.total_size + env.size b ≤ MAX_REQUEST_BATCHES_RESPONSE_SIZE
    · simp only [hle, if_true]
      refine ih _ ?_ hle
      simp only [sizeSum] at h1 ⊢
      simp [h1]
    · simp only [hle, if_false]
      exact ⟨h1, h2⟩

/-- Budget invariant lifted through the fold over all chunks. -/
theorem foldl_scanChunk_invariant (env : Env) (store : Store) :
    ∀ (chunks : List (List BatchDigest)) (acc : ScanAcc),
      sizeSum env acc.batches = acc.total_size →
      acc.total_size ≤ MAX_REQUEST_BATCHES_RESPONSE_SIZE →
      sizeSum env (chunks.foldl
          (fun acc chunk => scanChunk env ((store.multi_get chunk).reduceOption) acc)
          acc).batches ≤ MAX_REQUEST_BATCHES_RESPONSE_SIZE := by
  intro chunks
  induction chunks with
  | nil => intro acc h1 h2; simpa [h1] using h2
  | cons c cs ih =>
    intro acc h1 h2
    have h := scanChunk_invariant env ((store.multi_get c).reduceOption) acc h1 h2
    exact ih _ h.1 h.2

/-- C2: for every digest list and every store contents (and every size
function), the batches returned by `request_batches` satisfy
`sum(b.size() for b in batches) ≤ 6_000_000`. -/
theorem request_batches_size_budget (env : Env) (store : Store)
    (batch_digests : List BatchDigest) :
    sizeSum env (request_batches env store batch_digests).batches ≤
      MAX_REQUEST_BATCHES_RESPONSE_SIZE := by
  exact foldl_scanChunk_invariant env store _ ⟨[], 0, false⟩ rfl (by decide)

/-- C1 (amended): the inner chunk scan appends exactly the longest prefix
of the chunk's present batches that fits the budget; the first overflowing
batch (if any) sets `is_size_limit_reached` and nothing later in that
chunk is appended — but the scan state is handed on, and subsequent chunks
are still processed. -/
theorem scanChunk_overflow_ends_chunk (env : Env) :
    ∀ (bs : List Batch) (acc : ScanAcc),
      scanChunk env bs acc =
        { batches := acc.batches ++ fitPrefix env acc.total_size bs
          total_size := acc.total_size + sizeSum env (fitPrefix env acc.total_size bs)
          is_size_limit_reached :=
            acc.is_size_limit_reached ||
              ((fitPrefix env acc.total_size bs).length != bs.length) } := by
  intro bs
  induction bs with
  | nil => intro acc; simp [scanChunk, fitPrefix, sizeSum]
  | cons b rest ih =>
    intro acc
    simp only [scanChunk, fitPrefix]
    by_cases hle : acc.total_size + env.size b ≤ MAX_REQUEST_BATCHES_RESPONSE_SIZE
    · simp only [hle, if_true]
      rw [ih]
      simp [sizeSum, Nat.add_assoc]
    · simp only [hle, if_false]
      simp [sizeSum]

/-- C1 (counterexample): with batches of sizes 5_999_999 and 2 stored
under the first chunk's digests 0 and 1, and a batch of size 1 stored
under digest 200 (which lies in the second chunk of the 201 requested
digests), appending the size-2 batch overflows the budget and sets
`is_size_limit_reached`, yet the size-1 batch discovered afterwards in the
next chunk is still appended: the response is `[size-5_999_999 batch,
size-1 batch]` with the flag set, refuting "appends no further batch from
... any subsequent chunk". -/
theorem request_batches_subsequent_chunk_counterexample :
    request_batches
      ⟨fun b => b.transactions.headD 0,
       fun b => b.transactions.headD 0,
       fun _ => Except.ok ()⟩
      [(0, ⟨[5999999]⟩), (1, ⟨[2]⟩), (200, ⟨[1]⟩)]
      (List.range 201) =
    ⟨[⟨[5999999]⟩, ⟨[1]⟩], true⟩ := by
  set_option maxRecDepth 10000 in decide

/-- C4: whenever `report_batch` returns Ok, the store maps the batch's
digest to the batch, and exactly one `report_others_batch` notification
carrying that digest and this worker's id has been appended to the
sequence of messages sent to the primary. -/
theorem report_batch_ok_stores_and_notifies (h : WorkerReceiverHandler)
    (env : Env) (st st' : WorkerState) (message : WorkerBatchMessage)
    (hok : report_batch h env st message = (Except.ok (), st')) :
    st'.store.get (env.digest message.batch) = some message.batch ∧
      st'.sentToPrimary =
        st.sentToPrimary ++ [⟨env.digest message.batch, h.id⟩] := by
  unfold report_batch at hok
  cases hv : env.validator message.batch with
  | error err => rw [hv] at hok; exact absurd (congrArg Prod.fst hok) (by simp)
  | ok u =>
    cases u
    rw [hv] at hok
    have hst : st' = { store := st.store.insert (env.digest message.batch) message.batch,
                       sentToPrimary := st.sentToPrimary ++ [⟨env.digest message.batch, h.id⟩] } :=
      (congrArg Prod.snd hok).symm
    subst hst
    exact ⟨Store.get_insert_self _ _ _, rfl⟩

/-- C4 witness: worker id 3, an always-accepting validator, a batch whose
digest is 7, and an empty initial state; `report_batch` returns Ok with
the batch stored under 7 and exactly one notification `(7, 3)` sent. -/
theorem report_batch_ok_stores_and_notifies_witness :
    (⟨[(7, ⟨[7]⟩)], [⟨7, 3⟩]⟩ : WorkerState).store.get 7 = some ⟨[7]⟩ ∧
      (⟨[(7, ⟨[7]⟩)], [⟨7, 3⟩]⟩ : WorkerState).sentToPrimary =
        ([] : List WorkerOthersBatchMessage) ++ [⟨7, 3⟩] := by
  exact report_batch_ok_stores_and_notifies ⟨3⟩
    ⟨fun b => b.transactions.headD 0, fun _ => 0, fun _ => Except.ok ()⟩
    ⟨[], []⟩ ⟨[(7, ⟨[7]⟩)], [⟨7, 3⟩]⟩ ⟨⟨[7]⟩⟩ rfl

/-- C5: when the validator rejects the batch, `report_batch` fails with
`BadRequest` carrying the validator's message, and the state — store and
primary notifications alike — is returned unchanged. -/
theorem report_batch_rejected_no_effect (h : WorkerReceiverHandler)
    (env : Env) (st : WorkerState) (message : WorkerBatchMessage)
    (err : String) (hbad : env.validator message.batch = Except.error err) :
    report_batch h env st message =
      (Except.error (Status.new_with_message StatusCode.badRequest
        ("Invalid batch: " ++ err)), st) := by
  unfold report_batch
  rw [hbad]

/-- C5 witness: a validator rejecting every batch with message "bad tx";
the call fails with BadRequest "Invalid batch: bad tx" and the state is
unchanged. -/
theorem report_batch_rejected_no_effect_witness :
    report_batch ⟨0⟩
      ⟨fun b => b.transactions.headD 0, fun _ => 0,
       fun _ => Except.error "bad tx"⟩
      ⟨[(1, ⟨[1]⟩)], []⟩ ⟨⟨[2]⟩⟩ =
      (Except.error (Status.new_with_message StatusCode.badRequest
        ("Invalid batch: " ++ "bad tx")), ⟨[(1, ⟨[1]⟩)], []⟩) := by
  exact report_batch_rejected_no_effect ⟨0⟩ _ ⟨[(1, ⟨[1]⟩)], []⟩ ⟨⟨[2]⟩⟩ "bad tx" rfl

theorem syncFinish_validated (r : ProcessState) :
    (syncFinish r).validated = r.validated := by
  unfold syncFinish
  cases r.error with
  | none => by_cases hm : r.missing.isEmpty <;> simp [hm]
  | some s => rfl

theorem syncFinish_store (r : ProcessState) :
    (syncFinish r).store = r.store := by
  unfold syncFinish
  cases r.error with
  | none => by_cases hm : r.missing.isEmpty <;> simp [hm]
  | some s => rfl

theorem syncFinish_error (r : ProcessState) (s : Status)
    (hs : r.error = some s) : (syncFinish r).outcome = SyncOutcome.err s := by
  unfold syncFinish
  rw [hs]

/-- When the network is configured, some digest is missing, the committee
and worker cache resolve the target, the peer is connected and the RPC
succeeds, `synchronize` reduces to the response loop followed by the final
missing-set check. -/
theorem synchronize_reaches_rpc
    (h : PrimaryReceiverHandler) (env : Env)
    (rpc : List BatchDigest → Except Status RequestBatchesResponse)
    (store : Store) (msg : WorkerSynchronizeMessage)
    (nw : Network) (a : Authority) (wi : WorkerInfo)
    (resp : RequestBatchesResponse)
    (hnet : h.network = some nw)
    (hmiss : probeMissing store msg.digests ≠ [])
    (hauth : h.committee.authority msg.target = some a)
    (hw : h.worker_cache.worker a.protocol_key h.id = Except.ok wi)
    (hpeer : nw.peer (peerIdOf wi.name) = some ())
    (hrpc : rpc (probeMissing store msg.digests) = Except.ok resp) :
    synchronize h env rpc store msg =
      syncFinish (processResponse env msg.is_certified resp.batches
        ⟨none, probeMissing store msg.digests, store, []⟩) := by
  have hempty : (probeMissing store msg.digests).isEmpty = false := by
    simpa [List.isEmpty_iff] using hmiss
  unfold synchronize
  rw [hnet]
  simp only [hempty, hauth, hw, hpeer, hrpc, Bool.false_eq_true, if_false]

/-- When the message is certified, the response loop never invokes the
validator and never raises an error. -/
theorem processResponse_certified (env : Env) :
    ∀ (bs : List Batch) (st : ProcessState),
      (processResponse env true bs st).validated = st.validated ∧
        (processResponse env true bs st).error = st.error := by
  intro bs
  induction bs with
  | nil => intro st; exact ⟨rfl, rfl⟩
  | cons b rest ih =>
    intro st
    by_cases hd : env.digest b ∈ st.missing <;>
      simp only [processResponse, if_true, hd, if_false, ite_true, ite_false] <;>
      exact ih _

/-- When the message is not certified and every batch of the response
passes validation, the response loop invokes the validator on exactly the
response batches, in order, and raises no error. -/
theorem processResponse_all_valid (env : Env) :
    ∀ (bs : List Batch) (st : ProcessState),
      (∀ b ∈ bs, env.validator b = Except.ok ()) →
      (processResponse env false bs st).validated = st.validated ++ bs ∧
        (processResponse env false bs st).error = st.error := by
  intro bs
  induction bs with
  | nil => intro st _; exact ⟨(List.append_nil _).symm, rfl⟩
  | cons b rest ih =>
    intro st hv
    have hb : env.validator b = Except.ok () := hv b (List.mem_cons_self _ _)
    have hrest : ∀ b' ∈ rest, env.validator b' = Except.ok () :=
      fun b' hb' => hv b' (List.mem_cons_of_mem _ hb')
    simp only [processResponse, Bool.false_eq_true, if_false, hb]
    by_cases hd : env.digest b ∈ st.missing
    · simp only [hd, ite_true]
      refine ⟨?_, ?_⟩
      · rw [(ih _ hrest).1]; simp
      · rw [(ih _ hrest).2]
    · simp only [hd, ite_false]
      refine ⟨?_, ?_⟩
      · rw [(ih _ hrest).1]; simp
      · rw [(ih _ hrest).2]

/-- When the message is not certified and the response is a run of valid
batches followed by an invalid one, the loop stops at the invalid batch:
the state is the one reached after the valid prefix, with the invalid
batch appended to the validator trace and a `BadRequest` error raised. -/
theorem processResponse_first_invalid (env : Env) :
    ∀ (pre : List Batch) (fb : Batch) (suf : List Batch) (m : String)
      (st : ProcessState),
      (∀ b ∈ pre, env.validator b = Except.ok ()) →
      env.validator fb = Except.error m →
      processResponse env false (pre ++ fb :: suf) st =
        { processResponse env false pre st with
          error := some (Status.new_with_message StatusCode.badRequest
            ("Invalid batch: " ++ m))
          validated := (processResponse env false pre st).validated ++ [fb] } := by
  intro pre
  induction pre with
  | nil =>
    intro fb suf m st _ hfb
    simp only [List.nil_append, processResponse, Bool.false_eq_true, if_false, hfb]
  | cons p pre' ih =>
    intro fb suf m st hpre hfb
    have hp : env.validator p = Except.ok () := hpre p (List.mem_cons_self _ _)
    have hpre' : ∀ b ∈ pre', env.validator b = Except.ok () :=
      fun b hb => hpre b (List.mem_cons_of_mem _ hb)
    simp only [List.cons_append, processResponse, Bool.false_eq_true, if_false, hp]
    by_cases hd : env.digest p ∈ st.missing
    · simp only [hd, ite_true]
      exact ih fb suf m _ hpre' hfb
    · simp only [hd, ite_false]
      exact ih fb suf m _ hpre' hfb

/-- Frame property of the response loop: a key outside the current
`missing` set is never written, so its store entry is unchanged. -/
theorem processResponse_get_unchanged (env : Env) (c : Bool) :
    ∀ (bs : List Batch) (st : ProcessState) (d : BatchDigest),
      d ∉ st.missing →
      ((processResponse env c bs st).store).get d = st.store.get d := by
  intro bs
  induction bs with
  | nil => intro st d _; rfl
  | cons b rest ih =>
    intro st d hd
    have hne : env.digest b ∈ st.missing → d ≠ env.digest b :=
      fun hmem heq => hd (heq ▸ hmem)
    have herase : d ∉ st.missing.erase (env.digest b) :=
      fun hmem => hd (List.mem_of_mem_erase hmem)
    cases c with
    | true =>
      by_cases hm : env.digest b ∈ st.missing
      · simp only [processResponse, if_true, hm, ite_true]
        rw [ih _ d herase]
        exact Store.get_insert_ne _ _ _ _ (hne hm)
      · simp only [processResponse, if_true, hm, ite_false]
        exact ih _ d hd
    | false =>
      cases hv : env.validator b with
      | error err =>
        simp only [processResponse, Bool.false_eq_true, if_false, hv]
      | ok u =>
        cases u
        by_cases hm : env.digest b ∈ st.missing
        · simp only [processResponse, Bool.false_eq_true, if_false, hv, hm, ite_true]
          rw [ih _ d herase]
          exact Store.get_insert_ne _ _ _ _ (hne hm)
        · simp only [processResponse, Bool.false_eq_true, if_false, hv, hm, ite_false]
          exact ih _ d hd

/-- Progress property of the response loop: every digest of `M0` that has
left the `missing` set has a store entry (inserted batches are kept). -/
theorem processResponse_obtained (env : Env) (c : Bool)
    (M0 : List BatchDigest) :
    ∀ (bs : List Batch) (st : ProcessState),
      (∀ d, d ∈ M0 → d ∉ st.missing → ((st.store.get d)).isSome) →
      ∀ d, d ∈ M0 → d ∉ (processResponse env c bs st).missing →
        (((processResponse env c bs st).store).get d).isSome := by
  intro bs
  induction bs with
  | nil => intro st hinv d hdM hdm; exact hinv d hdM hdm
  | cons b rest ih =>
    intro st hinv
    have hstep : ∀ (hm : env.digest b ∈ st.missing) (d : BatchDigest),
        d ∈ M0 → d ∉ st.missing.erase (env.digest b) →
        (((st.store.insert (env.digest b) b).get d)).isSome := by
      intro hm d hdM hde
      by_cases hdd : d = env.digest b
      · subst hdd; rw [Store.get_insert_self]; rfl
      · rw [Store.get_insert_ne _ _ _ _ hdd]
        exact hinv d hdM (fun hmem => hde ((List.mem_erase_of_ne hdd).mpr hmem))
    cases c with
    | true =>
      by_cases hm : env.digest b ∈ st.missing
      · simp only [processResponse, if_true, hm, ite_true]
        exact ih _ (fun d hdM hdm => hstep hm d hdM hdm)
      · simp only [processResponse, if_true, hm, ite_false]
        exact ih _ hinv
    | false =>
      cases hv : env.validator b with
      | error err =>
        simp only [processResponse, Bool.false_eq_true, if_false, hv]
        exact fun d hdM hdm => hinv d hdM hdm
      | ok u =>
        cases u
        by_cases hm : env.digest b ∈ st.missing
        · simp only [processResponse, Bool.false_eq_true, if_false, hv, hm, ite_true]
          exact ih _ (fun d hdM hdm => hstep hm d hdM hdm)
        · simp only [processResponse, Bool.false_eq_true, if_false, hv, hm, ite_false]
          exact ih _ hinv

/-- C6: on the path that reaches the outbound RPC, (i) a certified message
never invokes the validator; (ii) an uncertified message invokes the
validator on exactly the response's batches, in order, when they all pass;
(iii) a validator failure on any response batch fails the whole call with
`BadRequest` carrying the validator's message. -/
theorem synchronize_validator_usage
    (h : PrimaryReceiverHandler) (env : Env)
    (rpc : List BatchDigest → Except Status RequestBatchesResponse)
    (store : Store) (msg : WorkerSynchronizeMessage)
    (nw : Network) (a : Authority) (wi : WorkerInfo)
    (resp : RequestBatchesResponse)
    (hnet : h.network = some nw)
    (hmiss : probeMissing store msg.digests ≠ [])
    (hauth : h.committee.authority msg.target = some a)
    (hw : h.worker_cache.worker a.protocol_key h.id = Except.ok wi)
    (hpeer : nw.peer (peerIdOf wi.name) = some ())
    (hrpc : rpc (probeMissing store msg.digests) = Except.ok resp) :
    (msg.is_certified = true →
      (synchronize h env rpc store msg).validated = []) ∧
    (msg.is_certified = false →
      (∀ b ∈ resp.batches, env.validator b = Except.ok ()) →
      (synchronize h env rpc store msg).validated = resp.batches) ∧
    (msg.is_certified = false →
      ∀ (pre : List Batch) (fb : Batch) (suf : List Batch) (m : String),
        resp.batches = pre ++ fb :: suf →
        (∀ b ∈ pre, env.validator b = Except.ok ()) →
        env.validator fb = Except.error m →
        (synchronize h env rpc store msg).outcome =
          SyncOutcome.err (Status.new_with_message StatusCode.badRequest
            ("Invalid batch: " ++ m))) := by
  have hsync := synchronize_reaches_rpc h env rpc store msg nw a wi resp
    hnet hmiss hauth hw hpeer hrpc
  refine ⟨?_, ?_, ?_⟩
  · intro hc
    rw [hsync, hc, syncFinish_validated]
    exact (processResponse_certified env resp.batches _).1
  · intro hc hall
    rw [hsync, hc, syncFinish_validated]
    have := (processResponse_all_valid env resp.batches
      ⟨none, probeMissing store msg.digests, store, []⟩ hall).1
    simpa using this
  · intro hc pre fb suf m hsplit hpre hfb
    rw [hsync, hc, hsplit,
      processResponse_first_invalid env pre fb suf m _ hpre hfb]
    exact syncFinish_error _ _ rfl

/-- C6 witness: a certified message for one absent digest against a fully
resolvable target; the validator trace of the call is empty. -/
theorem synchronize_validator_usage_witness :
    (synchronize
      ⟨0, 1, ⟨fun _ => some ⟨2⟩⟩, ⟨fun _ _ => Except.ok ⟨4⟩⟩, 0, 0,
       some ⟨fun _ => some ()⟩, none⟩
      ⟨fun b => b.transactions.headD 0, fun _ => 0, fun _ => Except.ok ()⟩
      (fun _ => Except.ok ⟨[], false⟩) [] ⟨[5], 9, true⟩).validated = [] := by
  exact (synchronize_validator_usage _ _ _ _ _ _ _ _ ⟨[], false⟩
    rfl (by decide) rfl rfl rfl rfl).1 rfl

/-- C7: a digest outside the `missing` set computed by the initial store
probe is never written by `synchronize`: its store entry after the call is
exactly its entry before.  In particular no batch whose recomputed digest
was not requested-and-absent is ever inserted. -/
theorem synchronize_frame
    (h : PrimaryReceiverHandler) (env : Env)
    (rpc : List BatchDigest → Except Status RequestBatchesResponse)
    (store : Store) (msg : WorkerSynchronizeMessage) (d : BatchDigest)
    (hd : d ∉ probeMissing store msg.digests) :
    ((synchronize h env rpc store msg).store).get d = store.get d := by
  unfold synchronize
  cases hnet : h.network with
  | none => rfl
  | some nw =>
    dsimp only
    cases hm : (probeMissing store msg.digests).isEmpty with
    | true => rfl
    | false =>
      simp only [Bool.false_eq_true, if_false]
      cases hauth : h.committee.authority msg.target with
      | none => rfl
      | some a =>
        dsimp only
        cases hw : h.worker_cache.worker a.protocol_key h.id with
        | error e => rfl
        | ok wi =>
          dsimp only
          cases hpeer : nw.peer (peerIdOf wi.name) with
          | none => rfl
          | some u =>
            dsimp only
            cases hrpc : rpc (probeMissing store msg.digests) with
            | error s => rfl
            | ok resp =>
              dsimp only
              rw [syncFinish_store]
              exact processResponse_get_unchanged env msg.is_certified
                resp.batches _ d hd

/-- C7 witness: digest 3 was not among the requested-and-absent digests,
so its (absent) entry is untouched by the call. -/
theorem synchronize_frame_witness :
    ((synchronize
      ⟨0, 1, ⟨fun _ => some ⟨2⟩⟩, ⟨fun _ _ => Except.ok ⟨4⟩⟩, 0, 0,
       some ⟨fun _ => some ()⟩, none⟩
      ⟨fun b => b.transactions.headD 0, fun _ => 0, fun _ => Except.ok ()⟩
      (fun _ => Except.ok ⟨[⟨[5]⟩], false⟩) [] ⟨[5], 9, false⟩).store).get 3 =
      Store.get [] 3 := by
  exact synchronize_frame
    ⟨0, 1, ⟨fun _ => some ⟨2⟩⟩, ⟨fun _ _ => Except.ok ⟨4⟩⟩, 0, 0,
     some ⟨fun _ => some ()⟩, none⟩
    ⟨fun b => b.transactions.headD 0, fun _ => 0, fun _ => Except.ok ()⟩
    (fun _ => Except.ok ⟨[⟨[5]⟩], false⟩) [] ⟨[5], 9, false⟩ 3 (by decide)

/-- C8: on the path that reaches the outbound RPC, when the response loop
raises no error but leaves `missing` non-empty, the call fails with
`Internal` "failed to synchronize batches!", the final store is the store
left by the response loop (no rollback of partial progress), and every
probed digest that left `missing` has an entry in that store. -/
theorem synchronize_incomplete_internal
    (h : PrimaryReceiverHandler) (env : Env)
    (rpc : List BatchDigest → Except Status RequestBatchesResponse)
    (store : Store) (msg : WorkerSynchronizeMessage)
    (nw : Network) (a : Authority) (wi : WorkerInfo)
    (resp : RequestBatchesResponse) (r : ProcessState)
    (hnet : h.network = some nw)
    (hmiss : probeMissing store msg.digests ≠ [])
    (hauth : h.committee.authority msg.target = some a)
    (hw : h.worker_cache.worker a.protocol_key h.id = Except.ok wi)
    (hpeer : nw.peer (peerIdOf wi.name) = some ())
    (hrpc : rpc (probeMissing store msg.digests) = Except.ok resp)
    (hr : r = processResponse env msg.is_certified resp.batches
      ⟨none, probeMissing store msg.digests, store, []⟩)
    (herr : r.error = none)
    (hrem : r.missing ≠ []) :
    (synchronize h env rpc store msg).outcome =
      SyncOutcome.err (Status.internal "failed to synchronize batches!") ∧
    (synchronize h env rpc store msg).store = r.store ∧
    (∀ d, d ∈ probeMissing store msg.digests → d ∉ r.missing →
      ((r.store.get d)).isSome) := by
  have hsync := synchronize_reaches_rpc h env rpc store msg nw a wi resp
    hnet hmiss hauth hw hpeer hrpc
  have hne : r.missing.isEmpty = false := by
    simpa [List.isEmpty_iff] using hrem
  refine ⟨?_, ?_, ?_⟩
  · rw [hsync, ← hr]
    unfold syncFinish
    rw [herr]
    simp only [hne, Bool.false_eq_true, if_false]
  · rw [hsync, ← hr, syncFinish_store]
  · intro d hdM hdm
    subst hr
    exact processResponse_obtained env msg.is_certified
      (probeMissing store msg.digests) resp.batches
      ⟨none, probeMissing store msg.digests, store, []⟩
      (fun d' hdM' hdm' => absurd hdM' hdm') d hdM hdm

/-- C8 witness: digest 5 is missing, the target resolves, the peer replies
Ok with an empty batch list; the loop obtains nothing and the call fails
with Internal "failed to synchronize batches!". -/
theorem synchronize_incomplete_internal_witness :
    (synchronize
      ⟨0, 1, ⟨fun _ => some ⟨2⟩⟩, ⟨fun _ _ => Except.ok ⟨4⟩⟩, 0, 0,
       some ⟨fun _ => some ()⟩, none⟩
      ⟨fun b => b.transactions.headD 0, fun _ => 0, fun _ => Except.ok ()⟩
      (fun _ => Except.ok ⟨[], false⟩) [] ⟨[5], 9, true⟩).outcome =
      SyncOutcome.err (Status.internal "failed to synchronize batches!") := by
  exact (synchronize_incomplete_internal
    ⟨0, 1, ⟨fun _ => some ⟨2⟩⟩, ⟨fun _ _ => Except.ok ⟨4⟩⟩, 0, 0,
     some ⟨fun _ => some ()⟩, none⟩
    ⟨fun b => b.transactions.headD 0, fun _ => 0, fun _ => Except.ok ()⟩
    (fun _ => Except.ok ⟨[], false⟩) [] ⟨[5], 9, true⟩
    ⟨fun _ => some ()⟩ ⟨2⟩ ⟨4⟩ ⟨[], false⟩
    ⟨none, [5], [], []⟩ rfl (by decide) rfl rfl rfl rfl rfl rfl (by decide)).1

/-- C9: with an uncertified message, on the path that reaches the outbound
RPC, if the peer's response is a run of valid batches followed by an
invalid one — whether or not its digest was requested — the whole call
fails with `BadRequest` carrying the validator's message, and the final
store is the store reached after the valid prefix only: neither the
invalid batch nor any batch after it is stored. -/
theorem synchronize_invalid_response_batch
    (h : PrimaryReceiverHandler) (env : Env)
    (rpc : List BatchDigest → Except Status RequestBatchesResponse)
    (store : Store) (msg : WorkerSynchronizeMessage)
    (nw : Network) (a : Authority) (wi : WorkerInfo)
    (resp : RequestBatchesResponse)
    (pre : List Batch) (fb : Batch) (suf : List Batch) (m : String)
    (hnet : h.network = some nw)
    (hmiss : probeMissing store msg.digests ≠ [])
    (hauth : h.committee.authority msg.target = some a)
    (hw : h.worker_cache.worker a.protocol_key h.id = Except.ok wi)
    (hpeer : nw.peer (peerIdOf wi.name) = some ())
    (hrpc : rpc (probeMissing store msg.digests) = Except.ok resp)
    (hcert : msg.is_certified = false)
    (hsplit : resp.batches = pre ++ fb :: suf)
    (hpre : ∀ b ∈ pre, env.validator b = Except.ok ())
    (hfb : env.validator fb = Except.error m) :
    (synchronize h env rpc store msg).outcome =
      SyncOutcome.err (Status.new_with_message StatusCode.badRequest
        ("Invalid batch: " ++ m)) ∧
    (synchronize h env rpc store msg).store =
      (processResponse env false pre
        ⟨none, probeMissing store msg.digests, store, []⟩).store := by
  have hsync := synchronize_reaches_rpc h env rpc store msg nw a wi resp
    hnet hmiss hauth hw hpeer hrpc
  rw [hsync, hcert, hsplit,
    processResponse_first_invalid env pre fb suf m _ hpre hfb]
  exact ⟨syncFinish_error _ _ rfl, by rw [syncFinish_store]⟩

/-- C9 witness: the peer's only response batch fails validation with
"bad tx" and its digest 9 was never requested; the call fails with
BadRequest "Invalid batch: bad tx". -/
theorem synchronize_invalid_response_batch_witness :
    (synchronize
      ⟨0, 1, ⟨fun _ => some ⟨2⟩⟩, ⟨fun _ _ => Except.ok ⟨4⟩⟩, 0, 0,
       some ⟨fun _ => some ()⟩, none⟩
      ⟨fun b => b.transactions.headD 0, fun _ => 0,
       fun _ => Except.error "bad tx"⟩
      (fun _ => Except.ok ⟨[⟨[9]⟩], false⟩) [] ⟨[5], 9, false⟩).outcome =
      SyncOutcome.err (Status.new_with_message StatusCode.badRequest
        ("Invalid batch: " ++ "bad tx")) := by
  exact (synchronize_invalid_response_batch _ _ _ _ _ _ _ _ ⟨[⟨[9]⟩], false⟩
    [] ⟨[9]⟩ [] "bad tx"
    rfl (by decide) rfl rfl rfl rfl rfl rfl (by intro b hb; cases hb) rfl).1

/-- When every requested digest has a store entry, the probe loop collects
nothing. -/
theorem probeMissing_all_present (store : Store) :
    ∀ (ds : List BatchDigest) (acc : List BatchDigest),
      (∀ d ∈ ds, ((store.get d)).isSome) →
      ds.foldl
        (fun acc d =>
          match store.get d with
          | none => if d ∈ acc then acc else acc ++ [d]
          | some _ => acc)
        acc = acc := by
  intro ds
  induction ds with
  | nil => intro acc _; rfl
  | cons d ds ih =>
    intro acc hall
    have hd : ((store.get d)).isSome := hall d (List.mem_cons_self _ _)
    obtain ⟨b, hb⟩ := Option.isSome_iff_exists.mp hd
    simp only [List.foldl_cons, hb]
    exact ih acc (fun d' hd' => hall d' (List.mem_cons_of_mem _ hd'))

/-- C10: with the network configured, when every requested digest is
already present in the store, `synchronize` returns Ok with the store
unchanged and no validator invocation — for every committee, worker cache
and peer reply whatsoever, so the unchecked committee access is never
reached and no outbound RPC influences the result. -/
theorem synchronize_all_present
    (h : PrimaryReceiverHandler) (env : Env)
    (rpc : List BatchDigest → Except Status RequestBatchesResponse)
    (store : Store) (msg : WorkerSynchronizeMessage) (nw : Network)
    (hnet : h.network = some nw)
    (hall : ∀ d ∈ msg.digests, ((store.get d)).isSome) :
    synchronize h env rpc store msg = ⟨SyncOutcome.ok, store, []⟩ := by
  have hp : probeMissing store msg.digests = [] :=
    probeMissing_all_present store msg.digests [] hall
  unfold synchronize
  rw [hnet]
  dsimp only
  simp only [hp, List.isEmpty_nil, if_true]

/-- C10 witness: the committee knows no authority at all, yet the call for
an already-present digest succeeds without consulting it. -/
theorem synchronize_all_present_witness :
    synchronize
      ⟨0, 1, ⟨fun _ => none⟩, ⟨fun _ _ => Except.error "unknown"⟩, 0, 0,
       some ⟨fun _ => none⟩, none⟩
      ⟨fun b => b.transactions.headD 0, fun _ => 0, fun _ => Except.ok ()⟩
      (fun _ => Except.error (Status.internal "no peer")) [(5, ⟨[5]⟩)]
      ⟨[5], 9, false⟩ =
      ⟨SyncOutcome.ok, [(5, ⟨[5]⟩)], []⟩ := by
  exact synchronize_all_present
    ⟨0, 1, ⟨fun _ => none⟩, ⟨fun _ _ => Except.error "unknown"⟩, 0, 0,
     some ⟨fun _ => none⟩, none⟩
    ⟨fun b => b.transactions.headD 0, fun _ => 0, fun _ => Except.ok ()⟩
    (fun _ => Except.error (Status.internal "no peer")) [(5, ⟨[5]⟩)]
    ⟨[5], 9, false⟩ ⟨fun _ => none⟩ rfl (by decide)

/-- C3 (counterexample): with the network configured, digest 5 absent from
the empty store, and a committee with no entry for target 9, the source's
`.unwrap()` on the committee lookup panics — the call aborts instead of
returning an `Internal` error status. -/
theorem synchronize_unknown_target_counterexample :
    (synchronize
      ⟨0, 1, ⟨fun _ => none⟩, ⟨fun _ _ => Except.ok ⟨4⟩⟩, 0, 0,
       some ⟨fun _ => some ()⟩, none⟩
      ⟨fun b => b.transactions.headD 0, fun _ => 0, fun _ => Except.ok ()⟩
      (fun _ => Except.ok ⟨[], false⟩) [] ⟨[5], 9, true⟩).outcome =
      SyncOutcome.aborted := by
  rfl

/-- C3 (amended): with the network configured, at least one requested
digest missing, and no committee entry for the target, `synchronize`
aborts (panics through the unchecked `.unwrap()` on the committee lookup)
rather than returning an error status. -/
theorem synchronize_unknown_target_aborts
    (h : PrimaryReceiverHandler) (env : Env)
    (rpc : List BatchDigest → Except Status RequestBatchesResponse)
    (store : Store) (msg : WorkerSynchronizeMessage) (nw : Network)
    (hnet : h.network = some nw)
    (hmiss : probeMissing store msg.digests ≠ [])
    (hauth : h.committee.authority msg.target = none) :
    (synchronize h env rpc store msg).outcome = SyncOutcome.aborted := by
  have hempty : (probeMissing store msg.digests).isEmpty = false := by
    simpa [List.isEmpty_iff] using hmiss
  unfold synchronize
  rw [hnet]
  dsimp only
  simp only [hempty, Bool.false_eq_true, if_false, hauth]

/-- C3 (amended) witness: a concrete configuration with an unknown target
authority; the call aborts. -/
theorem synchronize_unknown_target_aborts_witness :
    (synchronize
      ⟨3, 2, ⟨fun _ => none⟩, ⟨fun _ _ => Except.ok ⟨4⟩⟩, 0, 0,
       some ⟨fun _ => some ()⟩, none⟩
      ⟨fun b => b.transactions.headD 0, fun _ => 0, fun _ => Except.ok ()⟩
      (fun _ => Except.ok ⟨[], false⟩) [(1, ⟨[1]⟩)] ⟨[1, 6], 7, false⟩).outcome =
      SyncOutcome.aborted := by
  exact synchronize_unknown_target_aborts
    ⟨3, 2, ⟨fun _ => none⟩, ⟨fun _ _ => Except.ok ⟨4⟩⟩, 0, 0,
     some ⟨fun _ => some ()⟩, none⟩
    ⟨fun b => b.transactions.headD 0, fun _ => 0, fun _ => Except.ok ()⟩
    (fun _ => Except.ok ⟨[], false⟩) [(1, ⟨[1]⟩)] ⟨[1, 6], 7, false⟩
    ⟨fun _ => some ()⟩ rfl (by decide) rfl
